import Mathlib

/-!
Verification of the gamified mood tracker.

Shallow embedding of:
- the frontend Stats Deriver (totalPoints, currentStreak) from
  src/frontend/src/App.jsx lines 281-322,
- the client session manager (useAuth / authFetch) from App.jsx lines 10-91,
- the backend auth middleware (protect) from
  src/backend/middleware/authMiddleware.js,
- the mood-entry schema validation from src/backend/models/moodModel.js.

Dates are modelled as integer epoch-millisecond timestamps; the JS
normalization d.setHours(0,0,0,0) followed by d.getTime() maps a timestamp
to the start of its calendar day, and stepping one calendar day back
(setDate(getDate() - 1)) subtracts one day.  We represent a normalized day
by its day index (floor of timestamp / 86400000), under which day-start
values correspond bijectively to day indices and the one-day step becomes
subtraction of 1.
-/

namespace MoodApp

/-- A mood entry as the frontend receives it: mood string, journal text and
a date timestamp (epoch milliseconds, as an integer). -/
structure MoodEntry where
  user : String
  mood : String
  journal : String
  date : Int
deriving DecidableEq

/-- Milliseconds per calendar day. -/
def msPerDay : Int := 86400000

/-- Calendar-day index of a timestamp: the JS normalization
d.setHours(0,0,0,0) drops the time of day; we take the floor division of
the timestamp by the length of a day. -/
def toDay (t : Int) : Int := t.fdiv msPerDay

/-- The comparator (a, b) => new Date(b.date) - new Date(a.date): sorts
entries by date, newest first. -/
def dateDesc (a b : MoodEntry) : Bool := decide (b.date ≤ a.date)

/-- App.jsx line 285: const sortedEntries = [...moodHistory].sort(...). -/
def sortedEntries (moodHistory : List MoodEntry) : List MoodEntry :=
  moodHistory.mergeSort dateDesc

/-- App.jsx lines 290-296: const entryDates = new Set(sortedEntries.map(...)),
with each date normalized to its calendar day. -/
def entryDates (moodHistory : List MoodEntry) : Finset Int :=
  ((sortedEntries moodHistory).map (fun e => toDay e.date)).toFinset

/-- App.jsx lines 310-320: the while(true) loop.  Starting from cursor,
while the previous day is present in the set, count it and move the cursor
back; stop at the first gap.  The loop terminates because each step
consumes a fresh element of the finite set below the cursor. -/
def walk (s : Finset Int) (cursor : Int) : Nat :=
  if h : (cursor - 1) ∈ s then 1 + walk s (cursor - 1) else 0
termination_by (s.filter (fun d => d < cursor)).card
decreasing_by
  apply Finset.card_lt_card
  rw [Finset.ssubset_iff_of_subset]
  · exact ⟨cursor - 1, Finset.mem_filter.mpr ⟨h, by linarith⟩,
      fun hc => by simp only [Finset.mem_filter] at hc; linarith [hc.2]⟩
  · intro x hx
    simp only [Finset.mem_filter] at *
    exact ⟨hx.1, by linarith [hx.2]⟩

/-- App.jsx lines 283-322: the currentStreak useMemo.  Empty history gives
0; otherwise seed the streak at today if present, else at yesterday if
present, else return 0; then walk backwards day by day. -/
def currentStreak (moodHistory : List MoodEntry) (today : Int) : Nat :=
  if moodHistory.length = 0 then 0
  else
    let s := entryDates moodHistory
    if today ∈ s then 1 + walk s today
    else if (today - 1) ∈ s then 1 + walk s (today - 1)
    else 0

/-- App.jsx line 281: totalPoints = moodHistory.length * 10. -/
def totalPoints (moodHistory : List MoodEntry) : Nat :=
  moodHistory.length * 10

/-- Spec model, section 4.4: normalize each entry date to a calendar day
and collect into a set of distinct days. -/
def specDaySet (entries : List MoodEntry) : Finset Int :=
  (entries.map (fun e => toDay e.date)).toFinset

/-- Spec model, section 4.4 step 4: repeatedly check cursor minus one day;
while present in the set, increment the streak and move the cursor back;
stop at the first gap. -/
def specWalk (days : Finset Int) (cursor : Int) : Nat :=
  if h : (cursor - 1) ∈ days then 1 + specWalk days (cursor - 1) else 0
termination_by (days.filter (fun d => d < cursor)).card
decreasing_by
  apply Finset.card_lt_card
  rw [Finset.ssubset_iff_of_subset]
  · exact ⟨cursor - 1, Finset.mem_filter.mpr ⟨h, by linarith⟩,
      fun hc => by simp only [Finset.mem_filter] at hc; linarith [hc.2]⟩
  · intro x hx
    simp only [Finset.mem_filter] at *
    exact ⟨hx.1, by linarith [hx.2]⟩

/-- Spec model, section 4.4 steps 1-3: seed the streak at today if
present, else at yesterday if present, else 0; then walk backwards. -/
def specStreak (days : Finset Int) (today : Int) : Nat :=
  if today ∈ days then 1 + specWalk days today
  else if (today - 1) ∈ days then 1 + specWalk days (today - 1)
  else 0

/-- A run of n consecutive calendar days ending at day c, each present in
the day set. -/
def isRunEnding (days : Finset Int) (c : Int) (n : Nat) : Prop :=
  ∀ k : Nat, k < n → (c - k) ∈ days

theorem entryDates_eq_specDaySet (l : List MoodEntry) :
    entryDates l = specDaySet l := by
  unfold entryDates specDaySet sortedEntries
  have h : ((l.mergeSort dateDesc).map (fun e => toDay e.date)).Perm
      (l.map fun e => toDay e.date) :=
    (List.mergeSort_perm l dateDesc).map _
  ext a
  simp only [List.mem_toFinset, h.mem_iff]

theorem walk_eq_specWalk (s : Finset Int) (c : Int) : walk s c = specWalk s c := by
  induction c using walk.induct with
  | s => exact s
  | case1 x h ih =>
    rw [walk, specWalk]
    simp only [h, dite_true, ih]
  | case2 x h =>
    rw [walk, specWalk]
    simp only [h, dite_false]

theorem streak_eq_spec (l : List MoodEntry) (today : Int) :
    currentStreak l today = specStreak (specDaySet l) today := by
  unfold currentStreak specStreak
  by_cases hl : l.length = 0
  · have hnil : l = [] := List.length_eq_zero.mp hl
    subst hnil
    simp [specDaySet]
  · simp only [hl, if_false, entryDates_eq_specDaySet, walk_eq_specWalk]

theorem specWalk_step {s : Finset Int} {c : Int} (h : c - 1 ∈ s) :
    specWalk s c = 1 + specWalk s (c - 1) := by
  rw [specWalk]
  simp only [h, dite_true]

theorem specWalk_stop {s : Finset Int} {c : Int} (h : c - 1 ∉ s) :
    specWalk s c = 0 := by
  rw [specWalk]
  simp only [h, dite_false]

theorem specWalk_mem (s : Finset Int) (c : Int) :
    ∀ k : Nat, k < specWalk s c → (c - 1 - k) ∈ s := by
  induction c using specWalk.induct with
  | days => exact s
  | case1 x h ih =>
    intro k hk
    rw [specWalk_step h] at hk
    match k with
    | 0 => simpa using h
    | k + 1 =>
      have hmem := ih k (by omega)
      have heq : x - 1 - 1 - (k : Int) = x - 1 - ((k : Int) + 1) := by ring
      rw [heq] at hmem
      simpa using hmem
  | case2 x h =>
    intro k hk
    rw [specWalk_stop h] at hk
    omega

theorem specWalk_gap (s : Finset Int) (c : Int) :
    (c - 1 - (specWalk s c : Int)) ∉ s := by
  induction c using specWalk.induct with
  | days => exact s
  | case1 x h ih =>
    rw [specWalk_step h]
    have heq : x - 1 - ((1 + specWalk s (x - 1) : Nat) : Int)
        = x - 1 - 1 - (specWalk s (x - 1) : Int) := by push_cast; ring
    rw [heq]
    exact ih
  | case2 x h =>
    rw [specWalk_stop h]
    simpa using h

theorem specStreak_maximal (s : Finset Int) (today : Int) (n : Nat) :
    n ≤ specStreak s today ↔
      isRunEnding s today n ∨ isRunEnding s (today - 1) n := by
  unfold specStreak
  by_cases ht : today ∈ s
  · simp only [ht, if_true]
    constructor
    · intro hn
      left
      intro k hk
      match k with
      | 0 => simpa using ht
      | k + 1 =>
        have hmem := specWalk_mem s today k (by omega)
        have heq : today - 1 - (k : Int) = today - ((k : Int) + 1) := by ring
        rw [heq] at hmem
        simpa using hmem
    · rintro (hrun | hrun)
      · by_contra hlt
        have hr : specWalk s today + 1 < n := by omega
        have hmem := hrun (specWalk s today + 1) (by omega)
        have hgap := specWalk_gap s today
        have heq : today - ((specWalk s today + 1 : Nat) : Int)
            = today - 1 - (specWalk s today : Int) := by push_cast; ring
        rw [heq] at hmem
        exact hgap hmem
      · by_contra hlt
        have hmem := hrun (specWalk s today) (by omega)
        exact specWalk_gap s today hmem
  · simp only [ht, if_false]
    by_cases hy : (today - 1) ∈ s
    · simp only [hy, if_true]
      constructor
      · intro hn
        right
        intro k hk
        match k with
        | 0 => simpa using hy
        | k + 1 =>
          have hmem := specWalk_mem s (today - 1) k (by omega)
          have heq : today - 1 - 1 - (k : Int) = today - 1 - ((k : Int) + 1) := by ring
          rw [heq] at hmem
          simpa using hmem
      · rintro (hrun | hrun)
        · match n with
          | 0 => omega
          | n + 1 =>
            have hmem := hrun 0 (by omega)
            simp only [Nat.cast_zero, sub_zero] at hmem
            exact absurd hmem ht
        · by_contra hlt
          have hmem := hrun (specWalk s (today - 1) + 1) (by omega)
          have hgap := specWalk_gap s (today - 1)
          have heq : today - 1 - ((specWalk s (today - 1) + 1 : Nat) : Int)
              = today - 1 - 1 - (specWalk s (today - 1) : Int) := by push_cast; ring
          rw [heq] at hmem
          exact hgap hmem
    · simp only [hy, if_false]
      constructor
      · intro hn
        have hn0 : n = 0 := by omega
        subst hn0
        left
        intro k hk
        omega
      · rintro (hrun | hrun)
        · match n with
          | 0 => omega
          | n + 1 =>
            have hmem := hrun 0 (by omega)
            simp only [Nat.cast_zero, sub_zero] at hmem
            exact absurd hmem ht
        · match n with
          | 0 => omega
          | n + 1 =>
            have hmem := hrun 0 (by omega)
            simp only [Nat.cast_zero, sub_zero] at hmem
            exact absurd hmem hy

/-! Backend middleware: src/backend/middleware/authMiddleware.js -/

/-- Environment of the middleware: jwt.verify with the ambient signing
secret (some decoded user id, or none when the library throws because the
token is malformed, expired or signed with an unrecognized key), and
User.findById (none when no user has that id). -/
structure AuthEnv where
  verify : String → Option String
  findUser : String → Option String

/-- The part of the HTTP request the middleware inspects. -/
structure Request where
  authorization : Option String

/-- The externally observable actions of the middleware, in order: sending
a 401 JSON response carrying a message field, or setting req.user and
calling next(). -/
inductive Action where
  | send401 (message : String)
  | next (user : String)
deriving DecidableEq

/-- JS String.prototype.split on a single separator character, over the
character list of the string: consecutive separators yield empty pieces,
and a string with no separator yields the one-element list. -/
def splitChar (c : Char) : List Char → List (List Char)
  | [] => [[]]
  | x :: xs =>
    if x = c then [] :: splitChar c xs
    else
      match splitChar c xs with
      | [] => [[x]]
      | g :: gs => (x :: g) :: gs

/-- authMiddleware.js line 8: req.headers.authorization.startsWith('Bearer'). -/
def startsWithBearer (h : String) : Bool :=
  "Bearer".data.isPrefixOf h.data

/-- authMiddleware.js line 11: req.headers.authorization.split(' '), as a
list of strings. -/
def headerParts (h : String) : List String :=
  (splitChar ' ' h.data).map (fun cs => ⟨cs⟩)

/-- JS truthiness of the token variable: undefined (none) and the empty
string are falsy. -/
def jsTruthy : Option String → Bool
  | none => false
  | some t => !(t == "")

/-- authMiddleware.js lines 9-29, the try/catch block: jwt.verify throws
when its token argument is undefined or the empty string and when the
token fails verification; a verified token whose decoded id matches no
user throws 'User not found'; every throw lands in the catch, which sends
a 401.  Otherwise req.user is set and next() is called. -/
def tryVerify (env : AuthEnv) (token : Option String) : List Action :=
  match token with
  | none => [Action.send401 "Not authorized, token failed"]
  | some t =>
    if t = "" then [Action.send401 "Not authorized, token failed"]
    else
      match env.verify t with
      | none => [Action.send401 "Not authorized, token failed"]
      | some id =>
        match env.findUser id with
        | none => [Action.send401 "Not authorized, token failed"]
        | some u => [Action.next u]

/-- authMiddleware.js lines 4-35: the protect middleware.  The result is
the sequence of observable actions in program order: the actions of the
Bearer branch (token extraction and try/catch), followed by the trailing
401 sent by the final if-statement whenever the token variable is still
falsy. -/
def protect (env : AuthEnv) (req : Request) : List Action :=
  let step :=
    match req.authorization with
    | some h =>
      if startsWithBearer h then
        let t := (headerParts h)[1]?
        (t, tryVerify env t)
      else ((none : Option String), ([] : List Action))
    | none => ((none : Option String), ([] : List Action))
  step.2 ++ (if jsTruthy step.1 then [] else [Action.send401 "Not authorized, no token"])

/-- The success condition of the middleware, read off the same code path:
a Bearer-prefixed header whose second space-separated part is a nonempty
token that verifies to the id of an existing user. -/
def authUser (env : AuthEnv) (req : Request) : Option String :=
  match req.authorization with
  | none => none
  | some h =>
    if startsWithBearer h then
      match (headerParts h)[1]? with
      | none => none
      | some t =>
        if t = "" then none
        else
          match env.verify t with
          | none => none
          | some id => env.findUser id
    else none

/-- True when the action list contains a call to next(). -/
def nextCalled (acts : List Action) : Bool :=
  acts.any fun a =>
    match a with
    | Action.next _ => true
    | _ => false

/-- Modelled from the spec: the POST /api/moods route and its handler live
in src/backend/routes/moodRoutes.js and the mood controller, which are not
under src/.  Per the spec's control flow (section 2) and HTTP surface
(section 6), the route runs the protect middleware, and the handler, which
persists the submitted entry, runs only if protect called next(). -/
def postMoods (env : AuthEnv) (req : Request) (store : List MoodEntry)
    (entry : MoodEntry) : List MoodEntry × List Action :=
  let acts := protect env req
  if nextCalled acts then (entry :: store, acts) else (store, acts)

/-! Mood entry schema: src/backend/models/moodModel.js -/

/-- moodModel.js line 15: the enum of allowed mood values. -/
def moodEnumValues : List String := ["happy", "good", "neutral", "sad", "upset"]

/-- Validation of the mood path of moodEntrySchema: the value is required
(a missing value is rejected) and constrained to the enum.  Mongoose also
rejects the empty string for a required String path; the empty string is
not in the enum, so the enum check subsumes it. -/
def validMood : Option String → Bool
  | none => false
  | some m => moodEnumValues.contains m

/-- Modelled from the spec: the createEntry handler lives in the mood
controller, which is not under src/.  Per spec section 4.2, createEntry
validates mood against the schema enum, failing with ValidationError
(HTTP 400) and persisting nothing on failure; on success the entry is
persisted for the authenticated user with the date defaulting to the
submission time, and the response is 201. -/
def createEntry (store : List MoodEntry) (userId : String)
    (mood : Option String) (journal : Option String) (date : Option Int)
    (now : Int) : List MoodEntry × Nat :=
  if validMood mood then
    (⟨userId, mood.getD "", journal.getD "", date.getD now⟩ :: store, 201)
  else
    (store, 400)

/-! Client session manager: useAuth in src/frontend/src/App.jsx -/

/-- The auth object held in React state and persisted to localStorage
under the fixed key: the username and token returned by the backend. -/
structure AuthData where
  username : String
  token : String
deriving DecidableEq

/-- The observable outcome of an authFetch call. -/
inductive FetchOutcome where
  | thrownNoToken
  | thrownUnauthorized
  | response (status : Nat)
deriving DecidableEq

/-- App.jsx lines 33-52: authFetch.  With no auth object or a falsy token
it throws before issuing the request, leaving the state unchanged;
otherwise it attaches the Bearer header and issues the request, and on a
401 response status it clears the auth state (setAuth(null)) and throws,
while every other status returns the response with the state unchanged. -/
def authFetch (auth : Option AuthData) (status : Nat) :
    Option AuthData × FetchOutcome :=
  match auth with
  | none => (none, FetchOutcome.thrownNoToken)
  | some a =>
    if a.token = "" then (some a, FetchOutcome.thrownNoToken)
    else if status = 401 then (none, FetchOutcome.thrownUnauthorized)
    else (some a, FetchOutcome.response status)

/-- App.jsx lines 25-31: the useEffect that syncs the auth state to
localStorage under the fixed key: the serialized object when
authenticated, and no stored value (removeItem) when anonymous. -/
def storedAuth (auth : Option AuthData) : Option String :=
  match auth with
  | some a => some (a.username ++ "|" ++ a.token)
  | none => none

/-! Helper lemmas for evaluating the streak on given day sets. -/

theorem toDay_noon (d : Int) : toDay (d * msPerDay + 43200000) = d := by
  unfold toDay msPerDay
  rw [Int.fdiv_eq_ediv _ (by norm_num)]
  omega

theorem specStreak_of_today {s : Finset Int} {today : Int} (h : today ∈ s) :
    specStreak s today = 1 + specWalk s today := by
  simp [specStreak, h]

theorem specStreak_of_yesterday {s : Finset Int} {today : Int}
    (h1 : today ∉ s) (h2 : today - 1 ∈ s) :
    specStreak s today = 1 + specWalk s (today - 1) := by
  simp [specStreak, h1, h2]

theorem specStreak_of_gap {s : Finset Int} {today : Int}
    (h1 : today ∉ s) (h2 : today - 1 ∉ s) : specStreak s today = 0 := by
  simp [specStreak, h1, h2]

/-- C1: for every entry list and current day, the frontend currentStreak
equals the result of the spec algorithm (normalize each date to a calendar
day, collect the distinct days into a set, seed at today if present else
at yesterday else 0, then walk backwards while the previous day is in the
set), and it is the length of the maximal run of consecutive calendar days
ending at today or at yesterday, each day holding at least one entry. -/
theorem currentStreak_matches_spec (l : List MoodEntry) (today : Int) :
    currentStreak l today = specStreak (specDaySet l) today ∧
    ∀ n : Nat, n ≤ currentStreak l today ↔
      (isRunEnding (specDaySet l) today n ∨
        isRunEnding (specDaySet l) (today - 1) n) := by
  refine ⟨streak_eq_spec l today, fun n => ?_⟩
  rw [streak_eq_spec l today]
  exact specStreak_maximal (specDaySet l) today n

/-- C2: the spec's worked examples, with every entry timed at noon of its
day: an entry today gives streak 1; entries today, yesterday and two days
ago give streak 3; entries yesterday and two days ago with nothing today
give streak 2; an entry two days ago alone gives streak 0; the empty list
gives streak 0 and points 0. -/
theorem streak_points_examples (today : Int) (u m j : String) :
    currentStreak [⟨u, m, j, today * msPerDay + 43200000⟩] today = 1 ∧
    currentStreak [⟨u, m, j, today * msPerDay + 43200000⟩,
        ⟨u, m, j, (today - 1) * msPerDay + 43200000⟩,
        ⟨u, m, j, (today - 2) * msPerDay + 43200000⟩] today = 3 ∧
    currentStreak [⟨u, m, j, (today - 1) * msPerDay + 43200000⟩,
        ⟨u, m, j, (today - 2) * msPerDay + 43200000⟩] today = 2 ∧
    currentStreak [⟨u, m, j, (today - 2) * msPerDay + 43200000⟩] today = 0 ∧
    currentStreak [] today = 0 ∧ totalPoints [] = 0 := by
  refine ⟨?_, ?_, ?_, ?_, by simp [currentStreak], rfl⟩
  · rw [streak_eq_spec]
    have hs : specDaySet [⟨u, m, j, today * msPerDay + 43200000⟩] = {today} := by
      simp [specDaySet, toDay_noon]
    rw [hs, specStreak_of_today (by simp),
      specWalk_stop (by simp only [Finset.mem_singleton]; omega)]
  · rw [streak_eq_spec]
    have hs : specDaySet [⟨u, m, j, today * msPerDay + 43200000⟩,
        ⟨u, m, j, (today - 1) * msPerDay + 43200000⟩,
        ⟨u, m, j, (today - 2) * msPerDay + 43200000⟩]
        = {today, today - 1, today - 2} := by
      simp [specDaySet, toDay_noon]
    rw [hs, specStreak_of_today (by simp),
      specWalk_step (by simp),
      specWalk_step (by simp only [Finset.mem_insert, Finset.mem_singleton]; omega),
      specWalk_stop (by simp only [Finset.mem_insert, Finset.mem_singleton]; omega)]
  · rw [streak_eq_spec]
    have hs : specDaySet [⟨u, m, j, (today - 1) * msPerDay + 43200000⟩,
        ⟨u, m, j, (today - 2) * msPerDay + 43200000⟩]
        = {today - 1, today - 2} := by
      simp [specDaySet, toDay_noon]
    rw [hs, specStreak_of_yesterday
        (by simp only [Finset.mem_insert, Finset.mem_singleton]; omega) (by simp),
      specWalk_step (by simp only [Finset.mem_insert, Finset.mem_singleton]; omega),
      specWalk_stop (by simp only [Finset.mem_insert, Finset.mem_singleton]; omega)]
  · rw [streak_eq_spec]
    have hs : specDaySet [⟨u, m, j, (today - 2) * msPerDay + 43200000⟩]
        = {today - 2} := by
      simp [specDaySet, toDay_noon]
    rw [hs, specStreak_of_gap (by simp only [Finset.mem_singleton]; omega)
        (by simp only [Finset.mem_singleton]; omega)]

/-- C3: totalPoints is ten times the number of entries, for every entry
list, duplicates included. -/
theorem totalPoints_ten_per_entry (l : List MoodEntry) :
    totalPoints l = 10 * l.length := by
  unfold totalPoints
  omega

/-- C4: an extra entry whose date falls on a calendar day already covered
by the list leaves currentStreak unchanged while still adding 10 points to
totalPoints. -/
theorem duplicate_day_entry (l : List MoodEntry) (e : MoodEntry) (today : Int)
    (h : toDay e.date ∈ specDaySet l) :
    currentStreak (e :: l) today = currentStreak l today ∧
    totalPoints (e :: l) = totalPoints l + 10 := by
  constructor
  · have hs : specDaySet (e :: l) = specDaySet l := by
      unfold specDaySet at h ⊢
      simp only [List.map_cons, List.toFinset_cons]
      exact Finset.insert_eq_self.mpr h
    rw [streak_eq_spec, streak_eq_spec, hs]
  · unfold totalPoints
    simp only [List.length_cons]
    omega

/-- C4 witness: two entries on calendar day 0, one at midnight and one a
second later; the duplicate does not change the streak but adds points. -/
theorem duplicate_day_entry_witness :
    currentStreak [⟨"u", "sad", "x", 1000⟩, ⟨"u", "happy", "", 43200000⟩] 0
      = currentStreak [⟨"u", "happy", "", 43200000⟩] 0 ∧
    totalPoints [⟨"u", "sad", "x", 1000⟩, ⟨"u", "happy", "", 43200000⟩]
      = totalPoints [⟨"u", "happy", "", 43200000⟩] + 10 :=
  duplicate_day_entry [⟨"u", "happy", "", 43200000⟩] ⟨"u", "sad", "x", 1000⟩ 0
    (by decide)

/-- C9: the streak depends only on the set of normalized calendar days:
two lists with the same day set, in particular permutations or lists with
duplicated entries, yield the same streak. -/
theorem streak_day_set_invariant (l1 l2 : List MoodEntry) (today : Int)
    (h : specDaySet l1 = specDaySet l2) :
    currentStreak l1 today = currentStreak l2 today := by
  rw [streak_eq_spec, streak_eq_spec, h]

/-- C9 witness: a singleton list versus a reordered, duplicated list over
the same calendar day. -/
theorem streak_day_set_invariant_witness :
    currentStreak [⟨"u", "happy", "", 0⟩] 5
      = currentStreak [⟨"u", "good", "hi", 5000⟩, ⟨"u", "happy", "", 0⟩] 5 :=
  streak_day_set_invariant [⟨"u", "happy", "", 0⟩]
    [⟨"u", "good", "hi", 5000⟩, ⟨"u", "happy", "", 0⟩] 5 (by decide)

/-- C5: a request to /api/moods without an Authorization header is
answered with the single 401 JSON response carrying a message, next() is
never called so the route handler never runs, and the entry store is left
unchanged. -/
theorem no_auth_header_rejected (env : AuthEnv) (req : Request)
    (store : List MoodEntry) (entry : MoodEntry)
    (h : req.authorization = none) :
    protect env req = [Action.send401 "Not authorized, no token"] ∧
    nextCalled (protect env req) = false ∧
    (postMoods env req store entry).1 = store := by
  have hp : protect env req = [Action.send401 "Not authorized, no token"] := by
    unfold protect
    rw [h]
    rfl
  refine ⟨hp, ?_, ?_⟩
  · rw [hp]
    rfl
  · unfold postMoods
    rw [hp]
    rfl

/-- C5 witness: the concrete headerless request against an environment
that would accept any token, with a one-entry submission. -/
theorem no_auth_header_rejected_witness :
    protect ⟨fun t => some t, fun u => some u⟩ ⟨none⟩
      = [Action.send401 "Not authorized, no token"] ∧
    nextCalled (protect ⟨fun t => some t, fun u => some u⟩ ⟨none⟩) = false ∧
    (postMoods ⟨fun t => some t, fun u => some u⟩ ⟨none⟩ []
      ⟨"u", "happy", "", 0⟩).1 = [] :=
  no_auth_header_rejected ⟨fun t => some t, fun u => some u⟩ ⟨none⟩ []
    ⟨"u", "happy", "", 0⟩ rfl

/-- C6: the middleware admits a request exactly when a Bearer header
carries a nonempty token that jwt.verify accepts and whose decoded id
denotes an existing user, and then it calls next() with that user attached
and sends no response; in every other case it sends a 401 response and
never calls next(). -/
theorem protect_auth_dichotomy (env : AuthEnv) (req : Request) :
    match authUser env req with
    | some u => protect env req = [Action.next u]
    | none => nextCalled (protect env req) = false ∧
        ∃ msg, Action.send401 msg ∈ protect env req := by
  unfold authUser protect
  cases hreq : req.authorization with
  | none => exact ⟨rfl, "Not authorized, no token", List.mem_singleton.mpr rfl⟩
  | some h =>
    by_cases hb : startsWithBearer h
    · simp only [hb, if_true]
      cases ht : (headerParts h)[1]? with
      | none =>
        exact ⟨rfl, "Not authorized, token failed", List.mem_cons_self _ _⟩
      | some t =>
        by_cases he : t = ""
        · subst he
          simp only [tryVerify, if_pos rfl]
          exact ⟨rfl, "Not authorized, token failed", List.mem_cons_self _ _⟩
        · simp only [tryVerify, he, if_false]
          have htr : jsTruthy (some t) = true := by
            simp [jsTruthy, he]
          cases hv : env.verify t with
          | none =>
            simp only [hv, htr, if_true, List.append_nil]
            exact ⟨rfl, "Not authorized, token failed", List.mem_singleton.mpr rfl⟩
          | some uid =>
            cases hf : env.findUser uid with
            | none =>
              simp only [hv, hf, htr, if_true, List.append_nil]
              exact ⟨rfl, "Not authorized, token failed", List.mem_singleton.mpr rfl⟩
            | some u =>
              simp only [hv, hf, htr, if_true, List.append_nil]
    · simp only [hb, if_false]
      exact ⟨rfl, "Not authorized, no token", List.mem_singleton.mpr rfl⟩

/-- C7: once a request has actually been issued (the state is
authenticated and its token is a nonempty string), the session becomes
anonymous and the stored token is removed from local storage exactly when
the response status is 401; every other status leaves the session
authenticated and the token stored. -/
theorem client_logout_on_401 (a : AuthData) (status : Nat)
    (h : a.token ≠ "") :
    ((authFetch (some a) status).1 = none ↔ status = 401) ∧
    (storedAuth (authFetch (some a) status).1 = none ↔ status = 401) := by
  unfold authFetch
  simp only [h, if_false]
  by_cases hs : status = 401 <;> simp [hs, storedAuth]

/-- C7 witness: a concrete authenticated session hit by a 401 and by a
200. -/
theorem client_logout_on_401_witness :
    (((authFetch (some ⟨"alice", "tok"⟩) 401).1 = none ↔ (401 : Nat) = 401) ∧
      (storedAuth (authFetch (some ⟨"alice", "tok"⟩) 401).1 = none ↔ (401 : Nat) = 401)) ∧
    (((authFetch (some ⟨"alice", "tok"⟩) 200).1 = none ↔ (200 : Nat) = 401) ∧
      (storedAuth (authFetch (some ⟨"alice", "tok"⟩) 200).1 = none ↔ (200 : Nat) = 401)) :=
  ⟨client_logout_on_401 ⟨"alice", "tok"⟩ 401 (by decide),
   client_logout_on_401 ⟨"alice", "tok"⟩ 200 (by decide)⟩

/-- C8: a submission whose mood value is outside the enumerated five is
rejected with 400 and nothing is persisted, while every enumerated value
passes validation of the mood field. -/
theorem mood_validation (store : List MoodEntry) (userId : String)
    (journal : Option String) (date : Option Int) (now : Int) (m : String) :
    (m ∉ moodEnumValues →
      createEntry store userId (some m) journal date now = (store, 400)) ∧
    (m ∈ moodEnumValues → validMood (some m) = true) := by
  constructor
  · intro hm
    unfold createEntry validMood
    simp [List.contains, List.elem_eq_mem, hm]
  · intro hm
    unfold validMood
    simp [List.contains, List.elem_eq_mem, hm]

/-- C8 witness: submitting the mood furious is rejected without touching
the store, and the enumerated value happy passes validation. -/
theorem mood_validation_witness :
    createEntry [] "u" (some "furious") none none 0 = ([], 400) ∧
    validMood (some "happy") = true :=
  ⟨(mood_validation [] "u" none none 0 "furious").1 (by decide),
   (mood_validation [] "u" none none 0 "happy").2 (by decide)⟩

/-- C10: counterexample to the one-outcome property.  A request whose
Authorization header is the bare word Bearer takes the Bearer branch with
an undefined extracted token: jwt.verify throws, the catch sends a 401,
and then the trailing no-token check sends a second 401, so the middleware
attempts two responses for one request, whatever the environment. -/
theorem protect_double_response (env : AuthEnv) :
    protect env ⟨some "Bearer"⟩ =
      [Action.send401 "Not authorized, token failed",
       Action.send401 "Not authorized, no token"] := by
  rfl

end MoodApp
